import Mathlib

/-!
Verification of the name-normalization and validation helpers of quail.py
(a Blender/mmd_tools helper script) against its natural-language
specification.  The Python functions are shallowly embedded: per-element
loop bodies become pure Lean functions over explicit record types, the
surrounding loops become maps and folds, and the Python string primitives
used by the source (`in` substring test, `str.replace`, and
`str.encode.isalnum`) are modelled below.
-/

/-- Python substring test helper: `pat` occurs somewhere in the list. -/
def pyStrContainsAux (pat : List Char) : List Char → Bool
  | [] => pat.isEmpty
  | c :: cs => pat.isPrefixOf (c :: cs) || pyStrContainsAux pat cs

/-- Python `pat in s` substring containment. -/
def pyStrContains (s pat : String) : Bool :=
  pyStrContainsAux pat.data s.data

/-- Fuel-indexed core of Python `str.replace`: replaces every
non-overlapping occurrence of `pat` (left to right) by `rep`.
The fuel is the length of the remaining input, which suffices because
each step consumes at least one character. -/
def pyStrReplaceAux (pat rep : List Char) : Nat → List Char → List Char
  | 0, s => s
  | _ + 1, [] => []
  | fuel + 1, c :: cs =>
    if pat.isPrefixOf (c :: cs) && !pat.isEmpty then
      rep ++ pyStrReplaceAux pat rep fuel (List.drop (pat.length - 1) cs)
    else
      c :: pyStrReplaceAux pat rep fuel cs

/-- Python `s.replace(pat, rep)`. -/
def pyStrReplace (s pat rep : String) : String :=
  String.mk (pyStrReplaceAux pat.data rep.data s.data.length s.data)

/-- Models Python `s.encode(utf-8).isalnum()` from the source.
Python `bytes.isalnum` is true iff the byte string is nonempty and every
byte is an ASCII letter or digit; on a UTF-8 encoding this holds iff the
string is nonempty and every character is an ASCII letter or digit, since
every byte of a non-ASCII character is at least 0x80.  `Char.isAlphanum`
is exactly the ASCII letter-or-digit test. -/
def pyEncodeUtf8IsAlnum (s : String) : Bool :=
  !s.data.isEmpty && s.data.all Char.isAlphanum

/-- `bone.mmd_bone` fields used by the source. -/
structure MMDBone where
  name_j : String
  name_e : String
  deriving DecidableEq

/-- A pose bone of the armature, as read and written by the source. -/
structure PoseBone where
  name : String
  is_mmd_shadow_bone : Bool
  mmd_bone : MMDBone
  deriving DecidableEq

/-- `obj.mmd_rigid` fields used by the source. -/
structure MMDRigid where
  name_j : String
  name_e : String
  deriving DecidableEq

/-- `obj.mmd_joint` fields used by the source. -/
structure MMDJoint where
  name_j : String
  name_e : String
  deriving DecidableEq

/-- A scene object (`bpy.data.objects` element) with the fields the
embedded functions read. -/
structure BObject where
  name : String
  type : String
  mmd_rigid : MMDRigid
  mmd_joint : MMDJoint
  deriving DecidableEq

/-- The exclusion tuple `excluded` of `setJapaneseBoneNames`
(quail.py line 34). -/
def excluded : List String :=
  ["上半身2補助.L", "上半身2補助.R", "腰キャンセル.L", "腰キャンセル.R", "下半身補助.L", "下半身補助.R"]

/-- Loop body of `setJapaneseBoneNames` (quail.py lines 36-49): shadow
bones and excluded bones are skipped; a name containing `.L` gets
`"左" + name.replace(".L", "")`, else a name containing `.R` gets
`"右" + name.replace(".R", "")`, else the name itself. -/
def setJapaneseBoneNames1 (b : PoseBone) : PoseBone :=
  if b.is_mmd_shadow_bone then b
  else if b.name ∈ excluded then b
  else if pyStrContains b.name ".L" then
    ⟨b.name, b.is_mmd_shadow_bone, ⟨"左" ++ pyStrReplace b.name ".L" "", b.mmd_bone.name_e⟩⟩
  else if pyStrContains b.name ".R" then
    ⟨b.name, b.is_mmd_shadow_bone, ⟨"右" ++ pyStrReplace b.name ".R" "", b.mmd_bone.name_e⟩⟩
  else
    ⟨b.name, b.is_mmd_shadow_bone, ⟨b.name, b.mmd_bone.name_e⟩⟩

/-- `setJapaneseBoneNames` over the whole bone list. -/
def setJapaneseBoneNames (bones : List PoseBone) : List PoseBone :=
  bones.map setJapaneseBoneNames1

/-- Python `s.endswith(pat)`, used to state the suffix reading of the
specification. -/
def pyStrEndsWith (s pat : String) : Bool :=
  pat.data.isSuffixOf s.data

/-- Claim C1 (counterexample): the identifier `"Arm.Left"` is not excluded
and carries no recognized `.L`/`.R` suffix, yet `setJapaneseBoneNames`
does not leave it unchanged: it assigns `"左Armeft"`, because the source
tests substring containment and removes every occurrence rather than
stripping a suffix. -/
theorem setJapaneseBoneNames_not_suffix_rule :
    pyStrEndsWith "Arm.Left" ".L" = false ∧
    pyStrEndsWith "Arm.Left" ".R" = false ∧
    "Arm.Left" ∉ excluded ∧
    (setJapaneseBoneNames1 ⟨"Arm.Left", false, ⟨"", ""⟩⟩).mmd_bone.name_j = "左Armeft" := by
  decide

/-- Claim C1 (amended): for every bone identifier not in the exclusion set
and not a shadow bone, the derivation maps an identifier containing `.L`
as a substring to `"左"` + the identifier with every occurrence of `.L`
removed; otherwise, one containing `.R` to `"右"` + the identifier with
every occurrence of `.R` removed; and an identifier containing neither to
itself unchanged. -/
theorem setJapaneseBoneNames_substring_rule (b : PoseBone)
    (hs : b.is_mmd_shadow_bone = false) (he : b.name ∉ excluded) :
    (pyStrContains b.name ".L" = true →
      (setJapaneseBoneNames1 b).mmd_bone.name_j = "左" ++ pyStrReplace b.name ".L" "") ∧
    (pyStrContains b.name ".L" = false → pyStrContains b.name ".R" = true →
      (setJapaneseBoneNames1 b).mmd_bone.name_j = "右" ++ pyStrReplace b.name ".R" "") ∧
    (pyStrContains b.name ".L" = false → pyStrContains b.name ".R" = false →
      (setJapaneseBoneNames1 b).mmd_bone.name_j = b.name) := by
  refine ⟨fun hL => ?_, fun hL hR => ?_, fun hL hR => ?_⟩ <;>
    simp [setJapaneseBoneNames1, hs, he, hL] <;> simp [hR]

/-- Claim C1 (witness): the rule evaluated on the bone `"腕.L"`. -/
theorem setJapaneseBoneNames_substring_rule_witness :
    (setJapaneseBoneNames1 ⟨"腕.L", false, ⟨"", ""⟩⟩).mmd_bone.name_j =
      "左" ++ pyStrReplace "腕.L" ".L" "" :=
  (setJapaneseBoneNames_substring_rule ⟨"腕.L", false, ⟨"", ""⟩⟩ rfl (by decide)).1 (by decide)

/-- Claim C5: a bone whose identifier is in the exclusion tuple is left
completely untouched by `setJapaneseBoneNames`, whatever its suffix. -/
theorem setJapaneseBoneNames_excluded_skip (b : PoseBone)
    (he : b.name ∈ excluded) :
    setJapaneseBoneNames1 b = b := by
  unfold setJapaneseBoneNames1
  split
  · rfl
  · simp [he]

/-- Claim C5 (witness): the excluded bone `"腰キャンセル.L"` keeps its
manually assigned Japanese name even though it ends in `.L`. -/
theorem setJapaneseBoneNames_excluded_skip_witness :
    setJapaneseBoneNames1 ⟨"腰キャンセル.L", false, ⟨"手動の名前", "manual"⟩⟩ =
      ⟨"腰キャンセル.L", false, ⟨"手動の名前", "manual"⟩⟩ :=
  setJapaneseBoneNames_excluded_skip ⟨"腰キャンセル.L", false, ⟨"手動の名前", "manual"⟩⟩ (by decide)

/-- Loop body of `setEnglishBoneNames` (quail.py lines 62-75): shadow
bones are skipped; the translation lookup result is assigned only when,
after removing `_` (and only `_`), its UTF-8 encoding is alphanumeric,
and only when the English name is empty or overwrite was requested. -/
def setEnglishBoneNames1 (translateFromJp : String → String) (overwrite : Bool) (b : PoseBone) : PoseBone :=
  if b.is_mmd_shadow_bone then b
  else
    let EnglishName := translateFromJp b.mmd_bone.name_j
    if !(pyEncodeUtf8IsAlnum (pyStrReplace EnglishName "_" "")) then b
    else if (b.mmd_bone.name_e != "") && !overwrite then b
    else ⟨b.name, b.is_mmd_shadow_bone, ⟨b.mmd_bone.name_j, EnglishName⟩⟩

/-- `setEnglishBoneNames` over the whole bone list. -/
def setEnglishBoneNames (translateFromJp : String → String) (overwrite : Bool)
    (bones : List PoseBone) : List PoseBone :=
  bones.map (setEnglishBoneNames1 translateFromJp overwrite)

/-- Loop body of `setEnglishRigidNames` (quail.py lines 200-212):
objects without a Japanese rigid name are skipped; the same `_`-only
validity test and overwrite gate guard the assignment. -/
def setEnglishRigidNames1 (translateFromJp : String → String) (overwrite : Bool) (o : BObject) : BObject :=
  if o.mmd_rigid.name_j = "" then o
  else
    let EnglishName := translateFromJp o.mmd_rigid.name_j
    if pyEncodeUtf8IsAlnum (pyStrReplace EnglishName "_" "") then
      if !overwrite && (o.mmd_rigid.name_e != "") then o
      else ⟨o.name, o.type, ⟨o.mmd_rigid.name_j, EnglishName⟩, o.mmd_joint⟩
    else o

/-- Loop body of `setEnglishJointNames` (quail.py lines 222-236). -/
def setEnglishJointNames1 (translateFromJp : String → String) (overwrite : Bool) (o : BObject) : BObject :=
  if o.mmd_joint.name_j = "" then o
  else
    let EnglishName := translateFromJp o.mmd_joint.name_j
    if pyEncodeUtf8IsAlnum (pyStrReplace EnglishName "_" "") then
      if !overwrite && (o.mmd_joint.name_e != "") then o
      else ⟨o.name, o.type, o.mmd_rigid, ⟨o.mmd_joint.name_j, EnglishName⟩⟩
    else o

/-- Replacing a single character by the empty string is filtering it out. -/
theorem pyStrReplaceAux_single_empty (p : Char) :
    ∀ (fuel : Nat) (s : List Char), s.length ≤ fuel →
      pyStrReplaceAux [p] [] fuel s = s.filter (fun c => !(c == p)) := by
  intro fuel
  induction fuel with
  | zero =>
    intro s h
    have hnil : s = [] := List.eq_nil_of_length_eq_zero (Nat.le_zero.mp h)
    subst hnil
    rfl
  | succ n ih =>
    intro s h
    match s with
    | [] => rfl
    | c :: cs =>
      have hlen : cs.length ≤ n := Nat.le_of_succ_le_succ h
      by_cases hpc : p = c
      · subst hpc
        simp [pyStrReplaceAux, List.isPrefixOf, ih cs hlen]
      · have hcp : (c == p) = false := by simp [Ne.symm hpc]
        have hpcb : (p == c) = false := by simp [hpc]
        simp [pyStrReplaceAux, List.isPrefixOf, hpcb, ih cs hlen, List.filter_cons, hcp]

/-- The characters of `s.replace("_", "")` are those of `s` other than
the underscore. -/
theorem pyStrReplace_underscore_data (s : String) :
    (pyStrReplace s "_" "").data = s.data.filter (fun c => !(c == '_')) :=
  pyStrReplaceAux_single_empty '_' s.data.length s.data (Nat.le_refl _)

/-- A string passing the `_`-stripped alphanumeric test of the source has
only ASCII alphanumeric characters and underscores. -/
theorem all_alnum_or_underscore (s : String)
    (h : pyEncodeUtf8IsAlnum (pyStrReplace s "_" "") = true) :
    s.data.all (fun c => c.isAlphanum || c == '_') = true := by
  simp only [pyEncodeUtf8IsAlnum, Bool.and_eq_true] at h
  have h2 := h.2
  rw [pyStrReplace_underscore_data] at h2
  rw [List.all_eq_true] at h2 ⊢
  intro c hc
  by_cases hcu : c = '_'
  · simp [hcu]
  · have hmem : c ∈ s.data.filter (fun c => !(c == '_')) := by
      rw [List.mem_filter]
      exact ⟨hc, by simp [hcu]⟩
    have := h2 _ hmem
    simp_all

/-- Claim C3 (counterexample): the lookup result `"A+1"` is valid under
the validity rule of the claim (removing both `_` and `+` leaves the
alphanumeric `"A1"`), yet `setEnglishBoneNames` skips it: the assignment
path strips only `_`, so the `+` makes the test fail and the English name
stays empty. -/
theorem setEnglishBoneNames_plus_rejected :
    pyEncodeUtf8IsAlnum (pyStrReplace (pyStrReplace "A+1" "_" "") "+" "") = true ∧
    (setEnglishBoneNames1 (fun _ => "A+1") true ⟨"arm", false, ⟨"腕", ""⟩⟩).mmd_bone.name_e = "" := by
  decide

/-- Claim C3 (amended): English-name assignment is skipped exactly when
the lookup result, after removing only `_` (not `+`), fails the
alphanumeric test (the empty string fails); an assigned English name
therefore never contains characters outside `[A-Za-z0-9_]` — both for
bones and for rigid bodies. -/
theorem setEnglishNames_validity_filter (translateFromJp : String → String) (overwrite : Bool)
    (b : PoseBone) (o : BObject) (hs : b.is_mmd_shadow_bone = false) :
    (pyEncodeUtf8IsAlnum (pyStrReplace (translateFromJp b.mmd_bone.name_j) "_" "") = false →
      setEnglishBoneNames1 translateFromJp overwrite b = b) ∧
    (pyEncodeUtf8IsAlnum (pyStrReplace (translateFromJp b.mmd_bone.name_j) "_" "") = true →
      (b.mmd_bone.name_e = "" ∨ overwrite = true) →
      (setEnglishBoneNames1 translateFromJp overwrite b).mmd_bone.name_e =
        translateFromJp b.mmd_bone.name_j) ∧
    ((setEnglishBoneNames1 translateFromJp overwrite b).mmd_bone.name_e = b.mmd_bone.name_e ∨
      ((setEnglishBoneNames1 translateFromJp overwrite b).mmd_bone.name_e).data.all
        (fun c => c.isAlphanum || c == '_') = true) ∧
    ((setEnglishRigidNames1 translateFromJp overwrite o).mmd_rigid.name_e = o.mmd_rigid.name_e ∨
      ((setEnglishRigidNames1 translateFromJp overwrite o).mmd_rigid.name_e).data.all
        (fun c => c.isAlphanum || c == '_') = true) := by
  refine ⟨fun hv => ?_, fun hv hg => ?_, ?_, ?_⟩
  · simp [setEnglishBoneNames1, hs, hv]
  · rcases hg with hg | hg <;> simp [setEnglishBoneNames1, hs, hv, hg]
  · by_cases hv : pyEncodeUtf8IsAlnum
        (pyStrReplace (translateFromJp b.mmd_bone.name_j) "_" "") = true
    · by_cases hgate : ((b.mmd_bone.name_e != "") && !overwrite) = true
      · left
        simp [setEnglishBoneNames1, hs, hv, hgate]
      · right
        have hassign : (setEnglishBoneNames1 translateFromJp overwrite b).mmd_bone.name_e =
            translateFromJp b.mmd_bone.name_j := by
          simp [setEnglishBoneNames1, hs, hv, hgate]
        rw [hassign]
        exact all_alnum_or_underscore _ hv
    · left
      simp [setEnglishBoneNames1, hs, Bool.eq_false_iff.mpr hv]
  · by_cases hj : o.mmd_rigid.name_j = ""
    · left
      simp [setEnglishRigidNames1, hj]
    · by_cases hv : pyEncodeUtf8IsAlnum
          (pyStrReplace (translateFromJp o.mmd_rigid.name_j) "_" "") = true
      · by_cases hgate : (!overwrite && (o.mmd_rigid.name_e != "")) = true
        · left
          simp [setEnglishRigidNames1, hj, hv, hgate]
        · right
          have hassign : (setEnglishRigidNames1 translateFromJp overwrite o).mmd_rigid.name_e =
              translateFromJp o.mmd_rigid.name_j := by
            simp [setEnglishRigidNames1, hj, hv, hgate]
          rw [hassign]
          exact all_alnum_or_underscore _ hv
      · left
        simp [setEnglishRigidNames1, hj, Bool.eq_false_iff.mpr hv]

/-- Claim C3 (witness): the valid lookup result `"Arm_L"` is assigned. -/
theorem setEnglishNames_validity_filter_witness :
    (setEnglishBoneNames1 (fun _ => "Arm_L") true ⟨"arm", false, ⟨"腕", ""⟩⟩).mmd_bone.name_e =
      "Arm_L" :=
  (setEnglishNames_validity_filter (fun _ => "Arm_L") true ⟨"arm", false, ⟨"腕", ""⟩⟩
    ⟨"w", "MESH", ⟨"", ""⟩, ⟨"", ""⟩⟩ rfl).2.1 (by decide) (Or.inr rfl)

/-- Claim C4: for bones, rigid bodies and joints alike, when the
translation lookup passes the validity test, a non-empty existing English
name together with `overwrite = false` makes the function skip the object
entirely, while `overwrite = true` makes it assign the looked-up value. -/
theorem setEnglishNames_overwrite_gating (translateFromJp : String → String) (overwrite : Bool)
    (b : PoseBone) (o : BObject)
    (hs : b.is_mmd_shadow_bone = false)
    (hvb : pyEncodeUtf8IsAlnum (pyStrReplace (translateFromJp b.mmd_bone.name_j) "_" "") = true)
    (hrj : o.mmd_rigid.name_j ≠ "")
    (hvr : pyEncodeUtf8IsAlnum (pyStrReplace (translateFromJp o.mmd_rigid.name_j) "_" "") = true)
    (hjj : o.mmd_joint.name_j ≠ "")
    (hvj : pyEncodeUtf8IsAlnum (pyStrReplace (translateFromJp o.mmd_joint.name_j) "_" "") = true) :
    (b.mmd_bone.name_e ≠ "" → overwrite = false →
      setEnglishBoneNames1 translateFromJp overwrite b = b) ∧
    (overwrite = true →
      (setEnglishBoneNames1 translateFromJp overwrite b).mmd_bone.name_e =
        translateFromJp b.mmd_bone.name_j) ∧
    (o.mmd_rigid.name_e ≠ "" → overwrite = false →
      setEnglishRigidNames1 translateFromJp overwrite o = o) ∧
    (overwrite = true →
      (setEnglishRigidNames1 translateFromJp overwrite o).mmd_rigid.name_e =
        translateFromJp o.mmd_rigid.name_j) ∧
    (o.mmd_joint.name_e ≠ "" → overwrite = false →
      setEnglishJointNames1 translateFromJp overwrite o = o) ∧
    (overwrite = true →
      (setEnglishJointNames1 translateFromJp overwrite o).mmd_joint.name_e =
        translateFromJp o.mmd_joint.name_j) := by
  refine ⟨fun hne hof => ?_, fun hot => ?_, fun hne hof => ?_, fun hot => ?_,
    fun hne hof => ?_, fun hot => ?_⟩
  · simp [setEnglishBoneNames1, hs, hvb, hne, hof]
  · simp [setEnglishBoneNames1, hs, hvb, hot]
  · simp [setEnglishRigidNames1, hrj, hvr, hne, hof]
  · simp [setEnglishRigidNames1, hrj, hvr, hot]
  · simp [setEnglishJointNames1, hjj, hvj, hne, hof]
  · simp [setEnglishJointNames1, hjj, hvj, hot]

/-- Claim C4 (witness): with an existing English name `"Old"`, overwrite
off skips the bone, and overwrite on replaces it with the lookup value. -/
theorem setEnglishNames_overwrite_gating_witness :
    setEnglishBoneNames1 (fun _ => "Arm") false ⟨"arm", false, ⟨"腕", "Old"⟩⟩ =
      ⟨"arm", false, ⟨"腕", "Old"⟩⟩ ∧
    (setEnglishBoneNames1 (fun _ => "Arm") true ⟨"arm", false, ⟨"腕", "Old"⟩⟩).mmd_bone.name_e =
      "Arm" :=
  ⟨(setEnglishNames_overwrite_gating (fun _ => "Arm") false ⟨"arm", false, ⟨"腕", "Old"⟩⟩
      ⟨"w", "MESH", ⟨"剛体", ""⟩, ⟨"関節", ""⟩⟩ rfl (by decide) (by decide) (by decide)
      (by decide) (by decide)).1 (by decide) rfl,
   (setEnglishNames_overwrite_gating (fun _ => "Arm") true ⟨"arm", false, ⟨"腕", "Old"⟩⟩
      ⟨"w", "MESH", ⟨"剛体", ""⟩, ⟨"関節", ""⟩⟩ rfl (by decide) (by decide) (by decide)
      (by decide) (by decide)).2.1 rfl⟩

/-- The four kinds of diagnostic line `checkInvalidBoneName` can print
for one bone. -/
inductive BoneNameViolation where
  | emptyEnglish
  | invalidEnglish
  | emptyJapanese
  | mismatch
  deriving DecidableEq

/-- Loop body of `checkInvalidBoneName` (quail.py lines 97-116): shadow
bones are skipped; the English name is flagged when empty or when the
`_`- and `+`-stripped alphanumeric test fails; the Japanese name is
flagged when empty, or reported as a mismatch when it differs from the
value recomputed by the same substring-and-replace rule used in
`setJapaneseBoneNames` (exclusions are not consulted here). -/
def checkInvalidBoneName1 (b : PoseBone) : List BoneNameViolation :=
  if b.is_mmd_shadow_bone then []
  else
    (if b.mmd_bone.name_e = "" then [BoneNameViolation.emptyEnglish]
     else if !(pyEncodeUtf8IsAlnum (pyStrReplace (pyStrReplace b.mmd_bone.name_e "_" "") "+" "")) then
       [BoneNameViolation.invalidEnglish]
     else [])
    ++
    (if b.mmd_bone.name_j = "" then [BoneNameViolation.emptyJapanese]
     else if pyStrContains b.name ".L" then
       (if b.mmd_bone.name_j ≠ "左" ++ pyStrReplace b.name ".L" "" then
         [BoneNameViolation.mismatch] else [])
     else if pyStrContains b.name ".R" then
       (if b.mmd_bone.name_j ≠ "右" ++ pyStrReplace b.name ".R" "" then
         [BoneNameViolation.mismatch] else [])
     else
       (if b.mmd_bone.name_j ≠ b.name then [BoneNameViolation.mismatch] else []))

/-- Claim C6: deriving the Japanese name and then validating is
consistent — after `setJapaneseBoneNames` processes a non-excluded,
non-shadow bone, `checkInvalidBoneName` reports no Japanese-name
mismatch for it. -/
theorem checkInvalidBoneName_after_derive (b : PoseBone)
    (hs : b.is_mmd_shadow_bone = false) (he : b.name ∉ excluded) :
    BoneNameViolation.mismatch ∉ checkInvalidBoneName1 (setJapaneseBoneNames1 b) := by
  cases hL : pyStrContains b.name ".L" with
  | true =>
    simp only [setJapaneseBoneNames1, hs, he, hL, if_false, if_true, Bool.false_eq_true,
      not_false_eq_true]
    simp [checkInvalidBoneName1, hs, hL, List.mem_append]
    split <;> simp
  | false =>
    cases hR : pyStrContains b.name ".R" with
    | true =>
      simp only [setJapaneseBoneNames1, hs, he, hL, hR, if_false, if_true, Bool.false_eq_true,
        not_false_eq_true]
      simp [checkInvalidBoneName1, hs, hL, hR, List.mem_append]
      split <;> simp
    | false =>
      simp only [setJapaneseBoneNames1, hs, he, hL, hR, if_false, Bool.false_eq_true,
        not_false_eq_true]
      simp [checkInvalidBoneName1, hs, hL, hR, List.mem_append]
      split <;> simp

/-- Claim C6 (witness): the derived name of `"腕.L"` passes the
mismatch check. -/
theorem checkInvalidBoneName_after_derive_witness :
    BoneNameViolation.mismatch ∉
      checkInvalidBoneName1 (setJapaneseBoneNames1 ⟨"腕.L", false, ⟨"", ""⟩⟩) :=
  checkInvalidBoneName_after_derive ⟨"腕.L", false, ⟨"", ""⟩⟩ rfl (by decide)

/-- The `joints` list collected by `checkPhysicsDuplicationInMMD`
(quail.py lines 249-253): the Japanese joint names of all objects whose
joint name is non-empty, in scene order. -/
def physicsJoints (objs : List BObject) : List String :=
  (objs.filter (fun o => o.mmd_joint.name_j != "")).map (fun o => o.mmd_joint.name_j)

/-- The `rigids` list collected by `checkPhysicsDuplicationInMMD`. -/
def physicsRigids (objs : List BObject) : List String :=
  (objs.filter (fun o => o.mmd_rigid.name_j != "")).map (fun o => o.mmd_rigid.name_j)

/-- Inner loops of `checkPhysicsDuplicationInMMD` (quail.py lines
255-262) for one element `lst` of `joints + rigids`.  Because `lst` is a
string, `for name1 in lst` ranges over its characters: the function
reports `(lst, name1)` whenever the character `name1` occurs more than
once in `lst`. -/
def charDupReports (lst : String) : List (String × Char) :=
  lst.data.filterMap (fun name1 =>
    if 1 < (lst.data.filter (fun name2 => name2 == name1)).length then some (lst, name1)
    else none)

/-- The report lines printed by `checkPhysicsDuplicationInMMD`. -/
def checkPhysicsDuplicationReports (objs : List BObject) : List (String × Char) :=
  (physicsJoints objs ++ physicsRigids objs).flatMap charDupReports

/-- A scene with two rigid bodies both named `Body_01` and one joint
named `Joint_A`, realizing the identifier list of claim C2. -/
def dupScene : List BObject :=
  [⟨"o1", "MESH", ⟨"Body_01", ""⟩, ⟨"", ""⟩⟩,
   ⟨"o2", "MESH", ⟨"Body_01", ""⟩, ⟨"", ""⟩⟩,
   ⟨"o3", "EMPTY", ⟨"", ""⟩, ⟨"Joint_A", ""⟩⟩]

/-- Claim C2 (counterexample): on the flat identifier list
`["Joint_A", "Body_01", "Body_01"]` the check reports nothing at all —
`"Body_01"`, though it occurs twice, is not flagged, because the loops
range over the characters of each name rather than over the list of
names (and the threshold in the source is `> 1`, not `> 2`). -/
theorem checkPhysicsDuplication_misses_duplicates :
    physicsJoints dupScene ++ physicsRigids dupScene = ["Joint_A", "Body_01", "Body_01"] ∧
    checkPhysicsDuplicationReports dupScene = [] := by
  decide

/-- Membership characterization helper for `charDupReports`. -/
theorem mem_charDupReports (lst : String) (p : String × Char) :
    p ∈ charDupReports lst ↔
      p.1 = lst ∧ p.2 ∈ lst.data ∧
        1 < (lst.data.filter (fun d => d == p.2)).length := by
  constructor
  · intro hp
    rcases List.mem_filterMap.mp hp with ⟨c, hc, hsome⟩
    by_cases hcount : 1 < (lst.data.filter (fun name2 => name2 == c)).length
    · rw [if_pos hcount] at hsome
      cases hsome
      exact ⟨rfl, hc, hcount⟩
    · rw [if_neg hcount] at hsome
      cases hsome
  · rintro ⟨h1, h2, h3⟩
    refine List.mem_filterMap.mpr ⟨p.2, h2, ?_⟩
    rw [if_pos h3]
    subst h1
    rfl

/-- Claim C2 (amended): `checkPhysicsDuplicationInMMD` is a per-character
check inside each identifier, not a frequency check over the identifier
list: a pair of an identifier and a character is reported precisely when
the identifier occurs in the collected joint-and-rigid name list and the
character occurs more than once (source threshold `> 1`) within that
identifier.  Duplicated identifiers themselves are never detected. -/
theorem checkPhysicsDuplication_char_rule (objs : List BObject) (p : String × Char) :
    p ∈ checkPhysicsDuplicationReports objs ↔
      p.1 ∈ physicsJoints objs ++ physicsRigids objs ∧ p.2 ∈ p.1.data ∧
        1 < (p.1.data.filter (fun d => d == p.2)).length := by
  unfold checkPhysicsDuplicationReports
  rw [List.mem_flatMap]
  constructor
  · rintro ⟨lst, hlst, hp⟩
    rcases (mem_charDupReports lst p).mp hp with ⟨h1, h2, h3⟩
    subst h1
    exact ⟨hlst, h2, h3⟩
  · rintro ⟨h1, h2, h3⟩
    exact ⟨p.1, h1, (mem_charDupReports p.1 p).mpr ⟨rfl, h2, h3⟩⟩

/-- Claim C2 (witness): a rigid body named `"AA"` is reported, the
character `A` occurring twice in it. -/
theorem checkPhysicsDuplication_char_rule_witness :
    ("AA", 'A') ∈ checkPhysicsDuplicationReports [⟨"oAA", "MESH", ⟨"AA", ""⟩, ⟨"", ""⟩⟩] :=
  (checkPhysicsDuplication_char_rule [⟨"oAA", "MESH", ⟨"AA", ""⟩, ⟨"", ""⟩⟩] ("AA", 'A')).mpr
    (by decide)

/-- `checkInvalidBoneName` as a state transformer: quail.py lines 90-116
only read the bones and print diagnostics, so the bone list component is
returned as it came in. -/
def checkInvalidBoneNameRun (bones : List PoseBone) :
    List PoseBone × List (String × BoneNameViolation) :=
  (bones, bones.flatMap (fun b => (checkInvalidBoneName1 b).map (fun v => (b.name, v))))

/-- `checkPhysicsDuplicationInMMD` as a state transformer: quail.py lines
239-262 only read the objects and print diagnostics. -/
def checkPhysicsDuplicationRun (objs : List BObject) :
    List BObject × List (String × Char) :=
  (objs, checkPhysicsDuplicationReports objs)

/-- Claim C7: both validation operations are report-only — they return
every bone and every scene object exactly as stored, never auto-fixing a
detected inconsistency or duplicate. -/
theorem checks_are_report_only (bones : List PoseBone) (objs : List BObject) :
    (checkInvalidBoneNameRun bones).1 = bones ∧ (checkPhysicsDuplicationRun objs).1 = objs :=
  ⟨rfl, rfl⟩

/-- A vertex morph entry of `mmd_root.vertex_morphs`. -/
structure VertexMorph where
  name : String
  name_e : String
  deriving DecidableEq

/-- Assignment `vertex_morphs[morph[0]].name_e = morph[1]` of
`setEnglishMorphNames` (quail.py lines 183-188): the first morph whose
name matches is updated, unless overwrite is off and it already has an
English name. -/
def updateVertexMorph (jname ename : String) (overwrite : Bool) :
    List VertexMorph → List VertexMorph
  | [] => []
  | m :: rest =>
    if m.name = jname then
      (if !overwrite && (m.name_e != "") then m else ⟨m.name, ename⟩) :: rest
    else m :: updateVertexMorph jname ename overwrite rest

/-- Row loop of `setEnglishMorphNames` (quail.py lines 181-190): each CSV
row `(japanese, english)` updates the matching vertex morph; a row whose
Japanese name is absent from the model is only reported and processing
continues with the remaining rows. -/
def setEnglishMorphNames (overwrite : Bool) :
    List (String × String) → List VertexMorph → List VertexMorph
  | [], morphs => morphs
  | row :: rest, morphs =>
    if morphs.any (fun m => m.name == row.1) then
      setEnglishMorphNames overwrite rest (updateVertexMorph row.1 row.2 overwrite morphs)
    else
      setEnglishMorphNames overwrite rest morphs

/-- Claim C8: no abort on first error — a CSV row whose Japanese morph
name is absent from the model leaves the morphs untouched and the
remaining rows are still processed exactly as if the bad row were not
there. -/
theorem setEnglishMorphNames_continue_on_missing (overwrite : Bool) (row : String × String)
    (rest : List (String × String)) (morphs : List VertexMorph)
    (h : morphs.any (fun m => m.name == row.1) = false) :
    setEnglishMorphNames overwrite (row :: rest) morphs =
      setEnglishMorphNames overwrite rest morphs := by
  simp [setEnglishMorphNames, h]

/-- Claim C8 (witness): a missing first row is skipped and the matching
second row is still applied. -/
theorem setEnglishMorphNames_continue_on_missing_witness :
    setEnglishMorphNames true [("ほげ", "Hoge"), ("笑い", "Smile")] [⟨"笑い", ""⟩] =
      [⟨"笑い", "Smile"⟩] := by
  rw [setEnglishMorphNames_continue_on_missing true ("ほげ", "Hoge") [("笑い", "Smile")]
    [⟨"笑い", ""⟩] (by decide)]
  decide

/-- `selectArmature` (quail.py lines 14-23): returns the name of the
first object of type ARMATURE; if the loop falls through, the Python
function returns None, modelled as `none`. -/
def selectArmature : List BObject → Option String
  | [] => none
  | o :: rest => if o.type = "ARMATURE" then some o.name else selectArmature rest

/-- Claim C9: `selectArmature` returns `none` precisely when the scene
contains no object of type ARMATURE, so indexing the object table with
its result is well-defined only under the precondition that an armature
exists. -/
theorem selectArmature_none_iff (objs : List BObject) :
    selectArmature objs = none ↔ ∀ o ∈ objs, o.type ≠ "ARMATURE" := by
  induction objs with
  | nil => simp [selectArmature]
  | cons o rest ih =>
    by_cases ho : o.type = "ARMATURE"
    · simp [selectArmature, ho]
    · simp [selectArmature, ho, ih]

/-- Claim C9 (witness): a scene holding only a mesh yields `none`. -/
theorem selectArmature_none_iff_witness :
    selectArmature [⟨"Cube", "MESH", ⟨"", ""⟩, ⟨"", ""⟩⟩] = none :=
  (selectArmature_none_iff [⟨"Cube", "MESH", ⟨"", ""⟩, ⟨"", ""⟩⟩]).mpr (by decide)

/-- Shape-key loop of `setMorphPanel` (quail.py lines 148-165), recursion
over the flattened shape keys with the running `processed_list`; returns
the names the operation registers (each is appended both to the 表情
display frame and to `vertex_morphs`). -/
def setMorphPanelAux (processed : List String) : List String → List String
  | [] => []
  | shape :: rest =>
    if shape = "ベース" ∨ shape = "Basis" then setMorphPanelAux processed rest
    else if shape ∈ processed then setMorphPanelAux processed rest
    else shape :: setMorphPanelAux (processed ++ [shape]) rest

/-- The names `setMorphPanel` registers, given the names initially in the
表情 display frame (quail.py lines 143-146) and the shape keys of each
key collection of `bpy.data.shape_keys`. -/
def setMorphPanelAdded (frameItems : List String) (shapeKeys : List (List String)) :
    List String :=
  setMorphPanelAux frameItems shapeKeys.flatten

/-- Invariant of the `setMorphPanel` loop: nothing already processed, no
base key, and no duplicate is ever registered. -/
theorem setMorphPanelAux_spec (shapes : List String) :
    ∀ processed : List String,
      (setMorphPanelAux processed shapes).Nodup ∧
      ∀ x ∈ setMorphPanelAux processed shapes,
        x ∉ processed ∧ x ≠ "ベース" ∧ x ≠ "Basis" := by
  induction shapes with
  | nil => intro processed; simp [setMorphPanelAux]
  | cons shape rest ih =>
    intro processed
    by_cases hbase : shape = "ベース" ∨ shape = "Basis"
    · simpa [setMorphPanelAux, hbase] using ih processed
    · by_cases hmem : shape ∈ processed
      · simpa [setMorphPanelAux, hbase, hmem] using ih processed
      · have hrec := ih (processed ++ [shape])
        have heq : setMorphPanelAux processed (shape :: rest) =
            shape :: setMorphPanelAux (processed ++ [shape]) rest := by
          simp [setMorphPanelAux, hbase, hmem]
        rw [heq]
        constructor
        · rw [List.nodup_cons]
          refine ⟨fun hx => ?_, hrec.1⟩
          have := (hrec.2 shape hx).1
          simp at this
        · intro x hx
          rcases List.mem_cons.mp hx with hx | hx
          · subst hx
            push_neg at hbase
            exact ⟨hmem, hbase.1, hbase.2⟩
          · have := hrec.2 x hx
            refine ⟨fun hxp => this.1 ?_, this.2.1, this.2.2⟩
            simp [hxp]

/-- Claim C10: `setMorphPanel` preserves the no-duplicate invariant of
the morph display panel — the names it registers contain no base key
(`"ベース"` or `"Basis"`), none that was already in the 表情 frame, and
no name twice. -/
theorem setMorphPanel_no_duplicates (frameItems : List String)
    (shapeKeys : List (List String)) :
    (setMorphPanelAdded frameItems shapeKeys).Nodup ∧
    ∀ x ∈ setMorphPanelAdded frameItems shapeKeys,
      x ∉ frameItems ∧ x ≠ "ベース" ∧ x ≠ "Basis" :=
  setMorphPanelAux_spec shapeKeys.flatten frameItems

/-- Claim C10 (witness): with `"まばたき"` already in the frame, the keys
`ベース`, `まばたき`, `笑い`, `笑い` lead to the single registration of
`笑い`. -/
theorem setMorphPanel_no_duplicates_witness :
    setMorphPanelAdded ["まばたき"] [["ベース", "まばたき", "笑い", "笑い"]] = ["笑い"] ∧
    (setMorphPanelAdded ["まばたき"] [["ベース", "まばたき", "笑い", "笑い"]]).Nodup ∧
    ∀ x ∈ setMorphPanelAdded ["まばたき"] [["ベース", "まばたき", "笑い", "笑い"]],
      x ∉ ["まばたき"] ∧ x ≠ "ベース" ∧ x ≠ "Basis" :=
  ⟨by decide,
   (setMorphPanel_no_duplicates ["まばたき"] [["ベース", "まばたき", "笑い", "笑い"]]).1,
   (setMorphPanel_no_duplicates ["まばたき"] [["ベース", "まばたき", "笑い", "笑い"]]).2⟩
